import Mathlib

/-!
Verification of the `CutoffNeighborFinder` scripting layer of the OVITO
repository (file
`src/plugins/particles/resources/python/ovito/data/particles/__init__.py`).

The Python layer under verification contains:
* the `SimulationCell.pbc` property (getter/setter over the three flags
  `pbc_x`, `pbc_y`, `pbc_z`);
* the `CutoffNeighborFinder.__init__` wrapper, which raises `KeyError` when
  the data collection lacks `position` or `cell` and otherwise calls the
  native `prepare`;
* the `CutoffNeighborFinder.find` wrapper, which checks the index bounds,
  builds a native `Query` and yields one 4-tuple
  `(neighbor_index, sqrt(distanceSquared), delta, pbcShift)` per step.

The native engine (`prepare`, `Query`) is C++ and is not part of the given
source tree; it is modelled here from the specification: a finder stores the
cutoff, the point list and the cell; construction rejects a non-positive
cutoff and a degenerate cell combined with a periodic flag, and computes per
periodic axis the number of image shells needed so that no neighbor within
the cutoff is missed (derived from the perpendicular width of the cell along
the corresponding reciprocal direction); a query enumerates every particle
with every admissible periodic shift and accepts a candidate when its squared
distance is at most the squared cutoff, excluding only the unshifted
self-pair.

Real coordinates are modelled exactly by rationals: the code's floating-point
comparison `distanceSquared <= cutoff^2` becomes the exact comparison
`distSq ≤ cutoff^2`, and the yielded float `sqrt(distanceSquared)` is the
real square root of the stored squared distance.
-/

namespace Ovito

/-- Coordinates of a 3d point or vector, exact rationals standing for the
program's floating-point reals. -/
abbrev Vec3 := ℚ × ℚ × ℚ

/-- Integer periodic shift vector, one entry per cell axis. -/
abbrev Shift3 := ℤ × ℤ × ℤ

/-- Componentwise sum of two vectors. -/
def vadd (u v : Vec3) : Vec3 := (u.1 + v.1, u.2.1 + v.2.1, u.2.2 + v.2.2)

/-- Componentwise difference of two vectors. -/
def vsub (u v : Vec3) : Vec3 := (u.1 - v.1, u.2.1 - v.2.1, u.2.2 - v.2.2)

/-- Componentwise negation of a vector. -/
def vneg (v : Vec3) : Vec3 := (-v.1, -v.2.1, -v.2.2)

/-- Scalar multiple of a vector. -/
def vsmul (a : ℚ) (v : Vec3) : Vec3 := (a * v.1, a * v.2.1, a * v.2.2)

/-- Euclidean inner product of two vectors. -/
def dot (u v : Vec3) : ℚ := u.1 * v.1 + u.2.1 * v.2.1 + u.2.2 * v.2.2

/-- Cross product of two vectors. -/
def cross (u v : Vec3) : Vec3 :=
  (u.2.1 * v.2.2 - u.2.2 * v.2.1, u.2.2 * v.1 - u.1 * v.2.2, u.1 * v.2.1 - u.2.1 * v.1)

/-- Squared Euclidean norm of a vector. -/
def normSq (v : Vec3) : ℚ := dot v v

/-- Componentwise negation of a periodic shift. -/
def sneg (s : Shift3) : Shift3 := (-s.1, -s.2.1, -s.2.2)

/-- Simulation cell: three basis vectors, an origin, and one periodic flag per
axis, mirroring the cell descriptor consumed by the finder (the native
`SimulationCell` with its `pbc_x`, `pbc_y`, `pbc_z` flags). -/
structure SimulationCell where
  a1 : Vec3
  a2 : Vec3
  a3 : Vec3
  origin : Vec3
  pbcX : Bool
  pbcY : Bool
  pbcZ : Bool
deriving DecidableEq

/-- Determinant of the cell basis matrix (the scalar triple product), the
signed cell volume. -/
def SimulationCell.det (c : SimulationCell) : ℚ := dot c.a1 (cross c.a2 c.a3)

/-- Whether at least one axis of the cell is periodic. -/
def SimulationCell.hasPbc (c : SimulationCell) : Bool := c.pbcX || c.pbcY || c.pbcZ

/-- Getter of the Python `SimulationCell.pbc` property: the tuple
`(pbc_x, pbc_y, pbc_z)`. -/
def SimulationCell.pbcGet (c : SimulationCell) : Bool × Bool × Bool :=
  (c.pbcX, c.pbcY, c.pbcZ)

/-- Setter of the Python `SimulationCell.pbc` property: asserts that the
supplied sequence has length 3 (modelled as returning `none` on assertion
failure) and writes `pbc_x`, `pbc_y`, `pbc_z` from `flags[0]`, `flags[1]`,
`flags[2]`. -/
def SimulationCell.pbcSet (c : SimulationCell) (flags : List Bool) : Option SimulationCell :=
  if flags.length = 3 then
    some { c with pbcX := flags.getD 0 false, pbcY := flags.getD 1 false,
                  pbcZ := flags.getD 2 false }
  else
    none

/-- Errors of the scripting layer: `KeyError` from the Python constructor,
the native `ConfigurationError`, and the Python wrapper's `IndexError`. -/
inductive OvitoError where
  | keyError (msg : String)
  | configurationError (msg : String)
  | indexError (msg : String)
deriving DecidableEq

/-- One neighbor record, corresponding to the 4-tuple yielded by the Python
generator: neighbor particle index, squared length of the connection vector
(the yielded distance is its square root), the connection vector from the
central particle to the visited periodic image of the neighbor, and the
periodic shift vector. -/
structure NeighborRecord where
  neighborIndex : ℕ
  distSq : ℚ
  delta : Vec3
  pbcShift : Shift3
deriving DecidableEq

/-- State of the finder after a successful `prepare`: the cutoff radius, a
read-only snapshot of the point set and cell, and the per-axis number of
periodic image shells computed at construction time. -/
structure CutoffNeighborFinder where
  cutoff : ℚ
  points : List Vec3
  cell : SimulationCell
  maxShiftX : ℕ
  maxShiftY : ℕ
  maxShiftZ : ℕ
deriving DecidableEq

namespace CutoffNeighborFinder

/-- Bounded search for the least `m`, starting at a given value, whose square
is at least `q`; the fuel argument makes the recursion structural. -/
def leastSqGeAux (q : ℚ) : ℕ → ℕ → ℕ
  | m, 0 => m
  | m, fuel + 1 => if q ≤ (m : ℚ) ^ 2 then m else leastSqGeAux q (m + 1) fuel

/-- Least natural number whose square is at least `q`: the ceiling of the
square root of `q`. Used to turn the squared ratio cutoff²/width² into a
periodic shell count. -/
def shellCount (q : ℚ) : ℕ := leastSqGeAux q 0 (max 1 ⌈q⌉₊)

/-- Modelled from the spec: reciprocal direction of the first cell axis (the
normal of the face spanned by the other two axes). The perpendicular width of
the cell along axis 1 is `det / |a2 × a3|`. -/
def recipX (c : SimulationCell) : Vec3 := cross c.a2 c.a3

/-- Modelled from the spec: reciprocal direction of the second cell axis. -/
def recipY (c : SimulationCell) : Vec3 := cross c.a3 c.a1

/-- Modelled from the spec: reciprocal direction of the third cell axis. -/
def recipZ (c : SimulationCell) : Vec3 := cross c.a1 c.a2

/-- Modelled from the spec: number of periodic image shells along one axis.
For a non-periodic axis the count is 0. For a periodic axis it is the least
`m` with `m * width ≥ cutoff`, where `width = |det| / |b|` is the
perpendicular width of the cell along that axis, expressed without square
roots as the least `m` with `cutoff² * |b|² / det² ≤ m²`. -/
def axisShells (cutoff : ℚ) (c : SimulationCell) (flag : Bool) (b : Vec3) : ℕ :=
  if flag then shellCount (cutoff ^ 2 * normSq b / c.det ^ 2) else 0

/-- Modelled from the spec: the native `prepare` step reached by
`CutoffNeighborFinder.__init__`. Construction fails with a
`ConfigurationError` when the cutoff is not positive, or when the cell basis
matrix is degenerate (zero volume) while at least one periodic flag is set;
otherwise it snapshots the inputs and computes the per-axis shell counts. -/
def prepare (cutoff : ℚ) (points : List Vec3) (cell : SimulationCell) :
    Except OvitoError CutoffNeighborFinder :=
  if cutoff ≤ 0 then
    .error (.configurationError "Invalid parameter: cutoff radius must be positive.")
  else if cell.det = 0 ∧ cell.hasPbc = true then
    .error (.configurationError "Invalid simulation cell: basis matrix is degenerate.")
  else
    .ok { cutoff := cutoff, points := points, cell := cell,
          maxShiftX := axisShells cutoff cell cell.pbcX (recipX cell),
          maxShiftY := axisShells cutoff cell cell.pbcY (recipY cell),
          maxShiftZ := axisShells cutoff cell cell.pbcZ (recipZ cell) }

/-- Integer shifts scanned along one axis: `-m, …, -1, 0, 1, …, m`. -/
def axisRange (m : ℕ) : List ℤ :=
  List.map (fun k : ℕ => (k : ℤ) - (m : ℤ)) (List.range (2 * m + 1))

/-- All periodic shift combinations scanned by a query of this finder. -/
def allShifts (f : CutoffNeighborFinder) : List Shift3 :=
  (axisRange f.maxShiftX).flatMap (fun sx =>
    (axisRange f.maxShiftY).flatMap (fun sy =>
      (axisRange f.maxShiftZ).map (fun sz => (sx, sy, sz))))

/-- Translation vector of a periodic shift: the integer combination
`s₁·a1 + s₂·a2 + s₃·a3` of the cell basis vectors. -/
def shiftVec (c : SimulationCell) (s : Shift3) : Vec3 :=
  vadd (vsmul (s.1 : ℚ) c.a1) (vadd (vsmul (s.2.1 : ℚ) c.a2) (vsmul (s.2.2 : ℚ) c.a3))

/-- Candidate record for central particle `i`, neighbor `j` and shift `s`:
the connection vector runs from the central particle to the shifted image of
the neighbor, and the stored quantity is its squared length. -/
def mkRecord (f : CutoffNeighborFinder) (i j : ℕ) (s : Shift3) : NeighborRecord :=
  let delta := vsub (vadd (f.points.getD j (0, 0, 0)) (shiftVec f.cell s))
      (f.points.getD i (0, 0, 0))
  { neighborIndex := j, distSq := normSq delta, delta := delta, pbcShift := s }

/-- Acceptance test of a candidate: the squared distance is at most the
squared cutoff (the code's tie rule: the comparison is performed on squared
values), and the candidate is not the unshifted self-pair. -/
def accept (f : CutoffNeighborFinder) (i : ℕ) (r : NeighborRecord) : Prop :=
  r.distSq ≤ f.cutoff ^ 2 ∧ ¬(r.neighborIndex = i ∧ r.pbcShift = ((0, 0, 0) : Shift3))

instance decAccept (f : CutoffNeighborFinder) (i : ℕ) (r : NeighborRecord) :
    Decidable (accept f i r) := by
  unfold accept
  infer_instance

/-- Modelled from the spec: the full record sequence of the native `Query`
over particle `i` — every particle index paired with every scanned periodic
shift, filtered by the acceptance test. -/
def find (f : CutoffNeighborFinder) (i : ℕ) : List NeighborRecord :=
  ((List.range f.points.length).flatMap (fun j => (allShifts f).map (mkRecord f i j))).filter
    (fun r => decide (accept f i r))

/-- Cursor state of a native `Query` while the Python generator consumes
it. -/
structure Query where
  pending : List NeighborRecord

/-- Construction of a fresh query over a central particle, as performed by
each invocation of the Python `find`. -/
def Query.start (f : CutoffNeighborFinder) (i : ℕ) : Query := ⟨find f i⟩

/-- The `query.atEnd` flag read by the Python loop. -/
def Query.atEnd (q : Query) : Bool := q.pending.isEmpty

/-- The record currently exposed by the query (`query.current`,
`query.distanceSquared`, `query.delta`, `query.pbcShift`). -/
def Query.currentRecord (q : Query) : NeighborRecord :=
  q.pending.headD { neighborIndex := 0, distSq := 0, delta := (0, 0, 0), pbcShift := (0, 0, 0) }

/-- The `query.next()` step. -/
def Query.next (q : Query) : Query := ⟨q.pending.tail⟩

/-- Fueled run of the Python `while not query.atEnd` loop, collecting the
yielded records in order. -/
def consumeAux : ℕ → Query → List NeighborRecord
  | 0, _ => []
  | fuel + 1, q => if q.atEnd then [] else q.currentRecord :: consumeAux fuel q.next

/-- Record sequence produced by one invocation of the Python generator
`find(self, index)` for an in-range index: a fresh query is constructed and
consumed to the end. -/
def findRecords (f : CutoffNeighborFinder) (i : ℕ) : List NeighborRecord :=
  consumeAux (find f i).length (Query.start f i)

/-- The Python `find` wrapper: indices outside `[0, particle_count)` raise an
`IndexError` before any query is constructed. -/
def findChecked (f : CutoffNeighborFinder) (index : ℤ) :
    Except OvitoError (List NeighborRecord) :=
  if index < 0 ∨ (f.points.length : ℤ) ≤ index then
    .error (.indexError "Particle index is out of range.")
  else
    .ok (findRecords f index.toNat)

end CutoffNeighborFinder

/-- Input of the Python constructor: a data collection that may or may not
expose a `position` and a `cell` attribute. -/
structure DataCollection where
  position : Option (List Vec3)
  cell : Option SimulationCell

/-- The Python `CutoffNeighborFinder.__init__`: raises `KeyError` when the
data collection lacks particle positions or cell information, and only then
hands the inputs to the native `prepare`. -/
def CutoffNeighborFinder.build (cutoff : ℚ) (dc : DataCollection) :
    Except OvitoError CutoffNeighborFinder :=
  match dc.position with
  | none => .error (.keyError "Data collection does not contain particle positions.")
  | some pos =>
    match dc.cell with
    | none => .error (.keyError "Data collection does not contain simulation cell information.")
    | some c => CutoffNeighborFinder.prepare cutoff pos c

/-- Cubic periodic cell of side `L` (diagonal basis matrix, all three axes
periodic), as used in the self-neighbor scenario of the specification. -/
def cubicCell (L : ℚ) : SimulationCell :=
  { a1 := (L, 0, 0), a2 := (0, L, 0), a3 := (0, 0, L), origin := (0, 0, 0),
    pbcX := true, pbcY := true, pbcZ := true }

/-- Concrete two-particle point set used by the witnesses. -/
def exPts : List Vec3 := [(0, 0, 0), (1, 0, 0)]

/-- Concrete non-periodic cell used by the witnesses. -/
def exCell : SimulationCell :=
  { a1 := (5, 0, 0), a2 := (0, 5, 0), a3 := (0, 0, 5), origin := (0, 0, 0),
    pbcX := false, pbcY := false, pbcZ := false }

/-- Concrete finder over `exPts` and `exCell` with cutoff 2; it is the value
produced by `prepare 2 exPts exCell`. -/
def exFinder : CutoffNeighborFinder :=
  { cutoff := 2, points := exPts, cell := exCell,
    maxShiftX := 0, maxShiftY := 0, maxShiftZ := 0 }

/-- Concrete neighbor record of particle 1 as seen from particle 0 in
`exFinder`. -/
def exRecord : NeighborRecord :=
  { neighborIndex := 1, distSq := 1, delta := (1, 0, 0), pbcShift := (0, 0, 0) }

/-- Concrete finder over a single particle in a unit periodic cube with
cutoff 2; it is the value produced by `prepare 2 [(0,0,0)] (cubicCell 1)`. -/
def exCubicFinder : CutoffNeighborFinder :=
  { cutoff := 2, points := [(0, 0, 0)], cell := cubicCell 1,
    maxShiftX := 2, maxShiftY := 2, maxShiftZ := 2 }

/-- Degenerate (zero-volume) cell with one periodic flag set. -/
def zeroCellP : SimulationCell :=
  { a1 := (0, 0, 0), a2 := (0, 0, 0), a3 := (0, 0, 0), origin := (0, 0, 0),
    pbcX := true, pbcY := false, pbcZ := false }

/-- Degenerate (zero-volume) cell with all periodic flags cleared. -/
def zeroCellN : SimulationCell :=
  { a1 := (0, 0, 0), a2 := (0, 0, 0), a3 := (0, 0, 0), origin := (0, 0, 0),
    pbcX := false, pbcY := false, pbcZ := false }

/-- Data collection lacking the `position` attribute. -/
def dcNoPos : DataCollection := { position := none, cell := some exCell }

/-- Data collection lacking the `cell` attribute. -/
def dcNoCell : DataCollection := { position := some exPts, cell := none }

namespace CutoffNeighborFinder

/-! ### Vector algebra lemmas -/

theorem normSq_nonneg (v : Vec3) : 0 ≤ normSq v := by
  unfold normSq dot
  nlinarith [mul_self_nonneg v.1, mul_self_nonneg v.2.1, mul_self_nonneg v.2.2]

theorem normSq_vneg (v : Vec3) : normSq (vneg v) = normSq v := by
  unfold normSq dot vneg
  ring

theorem normSq_vsub_comm (u v : Vec3) : normSq (vsub u v) = normSq (vsub v u) := by
  unfold normSq dot vsub
  ring

theorem vadd_zero_vec (p : Vec3) : vadd p (0, 0, 0) = p := by
  obtain ⟨x, y, z⟩ := p
  simp [vadd]

theorem vsub_vadd_cancel (p v : Vec3) : vsub (vadd p v) p = v := by
  obtain ⟨x, y, z⟩ := p
  obtain ⟨a, b, c⟩ := v
  simp [vsub, vadd]

theorem shiftVec_zero (c : SimulationCell) : shiftVec c ((0, 0, 0) : Shift3) = (0, 0, 0) := by
  obtain ⟨⟨x1, y1, z1⟩, ⟨x2, y2, z2⟩, ⟨x3, y3, z3⟩, o, px, py, pz⟩ := c
  simp [shiftVec, vsmul, vadd]

theorem shiftVec_sneg (c : SimulationCell) (s : Shift3) :
    shiftVec c (sneg s) = vneg (shiftVec c s) := by
  obtain ⟨s1, s2, s3⟩ := s
  simp only [shiftVec, sneg, vsmul, vadd, vneg, Prod.ext_iff]
  push_cast
  refine ⟨by ring, by ring, by ring⟩

theorem lagrange_identity (u v : Vec3) :
    normSq u * normSq v - dot u v ^ 2 = normSq (cross u v) := by
  unfold normSq dot cross
  ring

theorem dot_sq_le (u v : Vec3) : dot u v ^ 2 ≤ normSq u * normSq v := by
  have h := lagrange_identity u v
  have h2 := normSq_nonneg (cross u v)
  linarith

theorem dot_shiftVec_recipX (c : SimulationCell) (s : Shift3) :
    dot (shiftVec c s) (recipX c) = (s.1 : ℚ) * c.det := by
  obtain ⟨⟨x1, y1, z1⟩, ⟨x2, y2, z2⟩, ⟨x3, y3, z3⟩, o, px, py, pz⟩ := c
  simp [shiftVec, recipX, dot, cross, vadd, vsmul, SimulationCell.det]
  ring

theorem dot_shiftVec_recipY (c : SimulationCell) (s : Shift3) :
    dot (shiftVec c s) (recipY c) = (s.2.1 : ℚ) * c.det := by
  obtain ⟨⟨x1, y1, z1⟩, ⟨x2, y2, z2⟩, ⟨x3, y3, z3⟩, o, px, py, pz⟩ := c
  simp [shiftVec, recipY, dot, cross, vadd, vsmul, SimulationCell.det]
  ring

theorem dot_shiftVec_recipZ (c : SimulationCell) (s : Shift3) :
    dot (shiftVec c s) (recipZ c) = (s.2.2 : ℚ) * c.det := by
  obtain ⟨⟨x1, y1, z1⟩, ⟨x2, y2, z2⟩, ⟨x3, y3, z3⟩, o, px, py, pz⟩ := c
  simp [shiftVec, recipZ, dot, cross, vadd, vsmul, SimulationCell.det]
  ring

/-! ### Shell-count lemmas -/

theorem leastSqGeAux_ge (q : ℚ) : ∀ (fuel m : ℕ), m ≤ leastSqGeAux q m fuel := by
  intro fuel
  induction fuel with
  | zero => intro m; simp [leastSqGeAux]
  | succ n ih =>
    intro m
    rw [leastSqGeAux]
    split
    · exact le_refl m
    · exact le_trans (Nat.le_succ m) (ih (m + 1))

theorem leastSqGeAux_adequate (q : ℚ) :
    ∀ (fuel m : ℕ), q ≤ ((m + fuel : ℕ) : ℚ) ^ 2 → q ≤ ((leastSqGeAux q m fuel : ℕ) : ℚ) ^ 2 := by
  intro fuel
  induction fuel with
  | zero => intro m h; simpa [leastSqGeAux] using h
  | succ n ih =>
    intro m h
    rw [leastSqGeAux]
    split
    · assumption
    · exact ih (m + 1) (by convert h using 3; omega)

theorem shellCount_adequate (q : ℚ) : q ≤ ((shellCount q : ℕ) : ℚ) ^ 2 := by
  apply leastSqGeAux_adequate
  have h1 : q ≤ ((⌈q⌉₊ : ℕ) : ℚ) := Nat.le_ceil q
  have h2 : ((⌈q⌉₊ : ℕ) : ℚ) ≤ ((max 1 ⌈q⌉₊ : ℕ) : ℚ) := by
    exact_mod_cast Nat.le_max_right 1 ⌈q⌉₊
  have h3 : (1 : ℚ) ≤ ((max 1 ⌈q⌉₊ : ℕ) : ℚ) := by
    exact_mod_cast Nat.le_max_left 1 ⌈q⌉₊
  have h4 : ((0 + max 1 ⌈q⌉₊ : ℕ) : ℚ) = ((max 1 ⌈q⌉₊ : ℕ) : ℚ) := by norm_num
  rw [h4]
  nlinarith

theorem shellCount_pos (q : ℚ) (hq : 0 < q) : 1 ≤ shellCount q := by
  unfold shellCount
  obtain ⟨k, hk⟩ : ∃ k, max 1 ⌈q⌉₊ = k + 1 := ⟨max 1 ⌈q⌉₊ - 1, by omega⟩
  rw [hk, leastSqGeAux]
  rw [if_neg (by push_cast; nlinarith)]
  exact leastSqGeAux_ge q k 1

/-! ### Shift-range lemmas -/

theorem mem_axisRange (m : ℕ) (s : ℤ) : s ∈ axisRange m ↔ -(m : ℤ) ≤ s ∧ s ≤ (m : ℤ) := by
  unfold axisRange
  simp only [List.mem_map, List.mem_range]
  constructor
  · rintro ⟨k, hk, rfl⟩
    omega
  · rintro ⟨h1, h2⟩
    exact ⟨(s + m).toNat, by omega, by omega⟩

theorem zero_mem_axisRange (m : ℕ) : (0 : ℤ) ∈ axisRange m := by
  rw [mem_axisRange]
  omega

theorem mem_allShifts (f : CutoffNeighborFinder) (s : Shift3) :
    s ∈ allShifts f ↔
      s.1 ∈ axisRange f.maxShiftX ∧ s.2.1 ∈ axisRange f.maxShiftY ∧
        s.2.2 ∈ axisRange f.maxShiftZ := by
  obtain ⟨sx, sy, sz⟩ := s
  unfold allShifts
  simp only [List.mem_flatMap, List.mem_map]
  constructor
  · rintro ⟨ax, hax, ay, hay, az, haz, he⟩
    obtain ⟨rfl, rfl, rfl⟩ : ax = sx ∧ ay = sy ∧ az = sz := by
      simpa [Prod.ext_iff] using he
    exact ⟨hax, hay, haz⟩
  · rintro ⟨hx, hy, hz⟩
    exact ⟨sx, hx, sy, hy, sz, hz, rfl⟩

theorem neg_mem_axisRange (m : ℕ) (x : ℤ) (h : x ∈ axisRange m) : -x ∈ axisRange m := by
  rw [mem_axisRange] at h ⊢
  omega

theorem sneg_mem_allShifts (f : CutoffNeighborFinder) (s : Shift3)
    (h : s ∈ allShifts f) : sneg s ∈ allShifts f := by
  obtain ⟨sx, sy, sz⟩ := s
  rw [mem_allShifts] at h ⊢
  exact ⟨neg_mem_axisRange _ _ h.1, neg_mem_axisRange _ _ h.2.1, neg_mem_axisRange _ _ h.2.2⟩

theorem sneg_eq_zero_iff (s : Shift3) : sneg s = ((0, 0, 0) : Shift3) ↔ s = ((0, 0, 0) : Shift3) := by
  obtain ⟨sx, sy, sz⟩ := s
  simp only [sneg, Prod.ext_iff]
  omega

/-! ### Query membership and constructor inversion -/

theorem mem_find (f : CutoffNeighborFinder) (i : ℕ) (r : NeighborRecord) :
    r ∈ find f i ↔
      (∃ j, j < f.points.length ∧ ∃ s, s ∈ allShifts f ∧ mkRecord f i j s = r) ∧
        accept f i r := by
  unfold find
  rw [List.mem_filter]
  simp only [List.mem_flatMap, List.mem_map, List.mem_range, decide_eq_true_eq]

theorem mkRecord_self (f : CutoffNeighborFinder) (i : ℕ) (s : Shift3) :
    mkRecord f i i s =
      { neighborIndex := i, distSq := normSq (shiftVec f.cell s),
        delta := shiftVec f.cell s, pbcShift := s } := by
  unfold mkRecord
  rw [show vsub (vadd (f.points.getD i (0, 0, 0)) (shiftVec f.cell s))
      (f.points.getD i (0, 0, 0)) = shiftVec f.cell s from vsub_vadd_cancel _ _]

theorem prepare_eq_ok (cutoff : ℚ) (pts : List Vec3) (cell : SimulationCell)
    (f : CutoffNeighborFinder) :
    prepare cutoff pts cell = .ok f ↔
      0 < cutoff ∧ ¬(cell.det = 0 ∧ cell.hasPbc = true) ∧
        f = { cutoff := cutoff, points := pts, cell := cell,
              maxShiftX := axisShells cutoff cell cell.pbcX (recipX cell),
              maxShiftY := axisShells cutoff cell cell.pbcY (recipY cell),
              maxShiftZ := axisShells cutoff cell cell.pbcZ (recipZ cell) } := by
  unfold prepare
  split_ifs with h1 h2
  · constructor
    · intro h; cases h
    · rintro ⟨hc, -, -⟩; exact absurd h1 (not_le.mpr hc)
  · constructor
    · intro h; cases h
    · rintro ⟨-, hnd, -⟩; exact absurd h2 hnd
  · constructor
    · intro h
      rw [Except.ok.injEq] at h
      exact ⟨not_le.mp h1, h2, h.symm⟩
    · rintro ⟨-, -, rfl⟩
      rfl

/-! ### Periodic image shell bounds -/

theorem sq_det_pos (c : SimulationCell) (hdet : c.det ≠ 0) : 0 < c.det ^ 2 :=
  lt_of_le_of_ne (sq_nonneg c.det) (Ne.symm (pow_ne_zero 2 hdet))

theorem axisShells_adequate (cutoff : ℚ) (c : SimulationCell) (b : Vec3)
    (hdet : c.det ≠ 0) :
    cutoff ^ 2 * normSq b ≤
      ((shellCount (cutoff ^ 2 * normSq b / c.det ^ 2) : ℕ) : ℚ) ^ 2 * c.det ^ 2 := by
  have h := shellCount_adequate (cutoff ^ 2 * normSq b / c.det ^ 2)
  have hd2 := sq_det_pos c hdet
  calc cutoff ^ 2 * normSq b
      = cutoff ^ 2 * normSq b / c.det ^ 2 * c.det ^ 2 := by
        field_simp
  _ ≤ ((shellCount (cutoff ^ 2 * normSq b / c.det ^ 2) : ℕ) : ℚ) ^ 2 * c.det ^ 2 :=
        mul_le_mul_of_nonneg_right h (le_of_lt hd2)

theorem shift_comp_bound (c : SimulationCell) (cutoff : ℚ) (s : Shift3) (b : Vec3)
    (sk : ℤ) (m : ℕ)
    (hproj : dot (shiftVec c s) b = (sk : ℚ) * c.det)
    (hdet : c.det ≠ 0)
    (hm : cutoff ^ 2 * normSq b ≤ (m : ℚ) ^ 2 * c.det ^ 2)
    (hns : normSq (shiftVec c s) ≤ cutoff ^ 2) :
    -(m : ℤ) ≤ sk ∧ sk ≤ (m : ℤ) := by
  have hcs := dot_sq_le (shiftVec c s) b
  rw [hproj] at hcs
  have hb := normSq_nonneg b
  have h1 : normSq (shiftVec c s) * normSq b ≤ cutoff ^ 2 * normSq b :=
    mul_le_mul_of_nonneg_right hns hb
  have hd2 := sq_det_pos c hdet
  have h2 : ((sk : ℚ)) ^ 2 * c.det ^ 2 ≤ (m : ℚ) ^ 2 * c.det ^ 2 := by nlinarith
  have h3 : ((sk : ℚ)) ^ 2 ≤ ((m : ℚ)) ^ 2 := le_of_mul_le_mul_right h2 hd2
  have h4 : sk ^ 2 ≤ ((m : ℤ)) ^ 2 := by exact_mod_cast h3
  constructor
  · nlinarith [h4]
  · nlinarith [h4]

/-- Every periodic self-image of a particle whose translation vector lies
within the cutoff is reported by the modelled query: the scanned shift range
of a finder built by `prepare` is wide enough to reach it. Shifts along
non-periodic axes must be zero (images only exist along periodic axes). -/
theorem self_image_mem (cutoff : ℚ) (pts : List Vec3) (cell : SimulationCell)
    (f : CutoffNeighborFinder) (i : ℕ) (s : Shift3)
    (hok : prepare cutoff pts cell = .ok f)
    (hi : i < pts.length)
    (hx : cell.pbcX = false → s.1 = 0)
    (hy : cell.pbcY = false → s.2.1 = 0)
    (hz : cell.pbcZ = false → s.2.2 = 0)
    (hns : normSq (shiftVec cell s) ≤ cutoff ^ 2)
    (hs0 : s ≠ ((0, 0, 0) : Shift3)) :
    ({ neighborIndex := i, distSq := normSq (shiftVec cell s),
       delta := shiftVec cell s, pbcShift := s } : NeighborRecord) ∈ find f i := by
  rw [prepare_eq_ok] at hok
  obtain ⟨hc, hnd, rfl⟩ := hok
  have hdet : cell.hasPbc = true → cell.det ≠ 0 := fun hp hd => hnd ⟨hd, hp⟩
  have hmemX : s.1 ∈ axisRange (axisShells cutoff cell cell.pbcX (recipX cell)) := by
    cases hpx : cell.pbcX with
    | false =>
      rw [hx hpx]
      exact zero_mem_axisRange _
    | true =>
      have hd : cell.det ≠ 0 := hdet (by simp [SimulationCell.hasPbc, hpx])
      rw [mem_axisRange]
      unfold axisShells
      rw [if_pos rfl]
      exact shift_comp_bound cell cutoff s (recipX cell) s.1 _
        (dot_shiftVec_recipX cell s) hd (axisShells_adequate cutoff cell (recipX cell) hd) hns
  have hmemY : s.2.1 ∈ axisRange (axisShells cutoff cell cell.pbcY (recipY cell)) := by
    cases hpy : cell.pbcY with
    | false =>
      rw [hy hpy]
      exact zero_mem_axisRange _
    | true =>
      have hd : cell.det ≠ 0 := hdet (by simp [SimulationCell.hasPbc, hpy])
      rw [mem_axisRange]
      unfold axisShells
      rw [if_pos rfl]
      exact shift_comp_bound cell cutoff s (recipY cell) s.2.1 _
        (dot_shiftVec_recipY cell s) hd (axisShells_adequate cutoff cell (recipY cell) hd) hns
  have hmemZ : s.2.2 ∈ axisRange (axisShells cutoff cell cell.pbcZ (recipZ cell)) := by
    cases hpz : cell.pbcZ with
    | false =>
      rw [hz hpz]
      exact zero_mem_axisRange _
    | true =>
      have hd : cell.det ≠ 0 := hdet (by simp [SimulationCell.hasPbc, hpz])
      rw [mem_axisRange]
      unfold axisShells
      rw [if_pos rfl]
      exact shift_comp_bound cell cutoff s (recipZ cell) s.2.2 _
        (dot_shiftVec_recipZ cell s) hd (axisShells_adequate cutoff cell (recipZ cell) hd) hns
  rw [mem_find]
  refine ⟨⟨i, hi, s, ?_, ?_⟩, ?_, ?_⟩
  · rw [mem_allShifts]
    exact ⟨hmemX, hmemY, hmemZ⟩
  · exact mkRecord_self _ i s
  · exact hns
  · rintro ⟨-, h0⟩
    exact hs0 h0

theorem mkRecord_distSq (f : CutoffNeighborFinder) (i j : ℕ) (s : Shift3) :
    (mkRecord f i j s).distSq = normSq ((mkRecord f i j s).delta) := rfl

theorem mkRecord_zero (f : CutoffNeighborFinder) (i j : ℕ) :
    mkRecord f i j ((0, 0, 0) : Shift3) =
      { neighborIndex := j,
        distSq := normSq (vsub (f.points.getD j (0, 0, 0)) (f.points.getD i (0, 0, 0))),
        delta := vsub (f.points.getD j (0, 0, 0)) (f.points.getD i (0, 0, 0)),
        pbcShift := ((0, 0, 0) : Shift3) } := by
  unfold mkRecord
  rw [shiftVec_zero, vadd_zero_vec]

theorem vsub_vadd_neg (p q v : Vec3) :
    vsub (vadd p (vneg v)) q = vneg (vsub (vadd q v) p) := by
  obtain ⟨x1, y1, z1⟩ := p
  obtain ⟨x2, y2, z2⟩ := q
  obtain ⟨a, b, c⟩ := v
  simp only [vsub, vadd, vneg, Prod.ext_iff]
  refine ⟨by ring, by ring, by ring⟩

theorem mkRecord_sneg (f : CutoffNeighborFinder) (i j : ℕ) (s : Shift3) :
    mkRecord f j i (sneg s) =
      { neighborIndex := i, distSq := (mkRecord f i j s).distSq,
        delta := vneg ((mkRecord f i j s).delta), pbcShift := sneg s } := by
  simp only [mkRecord]
  rw [shiftVec_sneg, vsub_vadd_neg, normSq_vneg]

/-! ### The Python generator loop -/

theorem consumeAux_eq (l : List NeighborRecord) : consumeAux l.length ⟨l⟩ = l := by
  induction l with
  | nil => rfl
  | cons a t ih =>
    rw [List.length_cons, consumeAux]
    rw [if_neg (by simp [Query.atEnd])]
    show a :: consumeAux t.length ⟨t⟩ = a :: t
    rw [ih]

theorem findRecords_eq (f : CutoffNeighborFinder) (i : ℕ) : findRecords f i = find f i :=
  consumeAux_eq (find f i)

/-! ### Concrete instances used by the witnesses -/

theorem exPrepare : prepare 2 exPts exCell = .ok exFinder := by
  rw [prepare_eq_ok]
  refine ⟨by norm_num, ?_, ?_⟩
  · rintro ⟨-, h⟩
    simp [exCell, SimulationCell.hasPbc] at h
  · simp [exFinder, exCell, axisShells]

theorem exRecord_mem : exRecord ∈ find exFinder 0 := by
  rw [mem_find]
  refine ⟨⟨1, by simp [exFinder, exPts], (0, 0, 0), ?_, ?_⟩, ?_, ?_⟩
  · rw [mem_allShifts]
    exact ⟨zero_mem_axisRange _, zero_mem_axisRange _, zero_mem_axisRange _⟩
  · rw [mkRecord]
    show ({ neighborIndex := 1,
            distSq := normSq (vsub (vadd ((1, 0, 0) : Vec3) (shiftVec exFinder.cell (0, 0, 0)))
              ((0, 0, 0) : Vec3)),
            delta := vsub (vadd ((1, 0, 0) : Vec3) (shiftVec exFinder.cell (0, 0, 0)))
              ((0, 0, 0) : Vec3),
            pbcShift := ((0, 0, 0) : Shift3) } : NeighborRecord) = exRecord
    rw [shiftVec_zero, vadd_zero_vec]
    rw [show vsub ((1, 0, 0) : Vec3) ((0, 0, 0) : Vec3) = ((1, 0, 0) : Vec3) by
      simp [vsub]]
    rw [exRecord]
    norm_num [normSq, dot]
  · show exRecord.distSq ≤ exFinder.cutoff ^ 2
    norm_num [exRecord, exFinder]
  · rintro ⟨h, -⟩
    simp [exRecord] at h

theorem exRecord_mem_findRecords : exRecord ∈ findRecords exFinder 0 := by
  rw [findRecords_eq]
  exact exRecord_mem

theorem exCubicPrepare : prepare 2 [((0 : ℚ), (0 : ℚ), (0 : ℚ))] (cubicCell 1) = .ok exCubicFinder := by
  rw [prepare_eq_ok]
  refine ⟨by norm_num, ?_, ?_⟩
  · rintro ⟨h, -⟩
    norm_num [cubicCell, SimulationCell.det, dot, cross] at h
  · norm_num [exCubicFinder, cubicCell, axisShells, SimulationCell.det, recipX, recipY,
      recipZ, dot, cross, normSq, shellCount, leastSqGeAux]

/-! ### Claim theorems -/

/-- C1: for every finder built by `prepare` over a cell with all three
periodic flags false, and all valid indices `i ≠ j` whose distance is at most
the cutoff (expressed, exactly as the code compares it, on squared
quantities: `|pᵢ - pⱼ|² ≤ cutoff²`), the query of `i` contains the record
with neighbor index `j`, periodic shift `(0,0,0)`, connection vector
`pⱼ - pᵢ`, and squared distance `|pᵢ - pⱼ|²` (whose square root is the
reported distance `|pᵢ - pⱼ|`). -/
theorem find_completeness_nonperiodic (cutoff : ℚ) (pts : List Vec3)
    (cell : SimulationCell) (f : CutoffNeighborFinder) (i j : ℕ)
    (hpx : cell.pbcX = false) (hpy : cell.pbcY = false) (hpz : cell.pbcZ = false)
    (hok : prepare cutoff pts cell = .ok f)
    (hi : i < pts.length) (hj : j < pts.length) (hij : i ≠ j)
    (hcut : normSq (vsub (pts.getD i (0, 0, 0)) (pts.getD j (0, 0, 0))) ≤ cutoff ^ 2) :
    ({ neighborIndex := j,
       distSq := normSq (vsub (pts.getD j (0, 0, 0)) (pts.getD i (0, 0, 0))),
       delta := vsub (pts.getD j (0, 0, 0)) (pts.getD i (0, 0, 0)),
       pbcShift := ((0, 0, 0) : Shift3) } : NeighborRecord) ∈ find f i := by
  rw [prepare_eq_ok] at hok
  obtain ⟨hc, hnd, rfl⟩ := hok
  rw [mem_find]
  refine ⟨⟨j, hj, (0, 0, 0), ?_, ?_⟩, ?_, ?_⟩
  · rw [mem_allShifts]
    exact ⟨zero_mem_axisRange _, zero_mem_axisRange _, zero_mem_axisRange _⟩
  · exact mkRecord_zero _ i j
  · show normSq (vsub (pts.getD j (0, 0, 0)) (pts.getD i (0, 0, 0))) ≤ cutoff ^ 2
    rw [normSq_vsub_comm]
    exact hcut
  · rintro ⟨h1, -⟩
    exact hij (h1.symm)

/-- C1 witness: in the concrete two-particle non-periodic configuration,
particle 1 at distance 1 from particle 0 (cutoff 2) is reported with zero
shift. -/
theorem find_completeness_nonperiodic_witness :
    ({ neighborIndex := 1,
       distSq := normSq (vsub (exPts.getD 1 (0, 0, 0)) (exPts.getD 0 (0, 0, 0))),
       delta := vsub (exPts.getD 1 (0, 0, 0)) (exPts.getD 0 (0, 0, 0)),
       pbcShift := ((0, 0, 0) : Shift3) } : NeighborRecord) ∈ find exFinder 0 :=
  find_completeness_nonperiodic 2 exPts exCell exFinder 0 1 rfl rfl rfl exPrepare
    (by norm_num [exPts]) (by norm_num [exPts]) (by norm_num)
    (by norm_num [exPts, vsub, normSq, dot])

/-- C2: every record produced by the Python generator of a finder built by
`prepare` has its squared distance at most the squared cutoff (the code's
inclusive squared-distance comparison), stores exactly the squared norm of
its connection vector, and therefore its reported distance — the real square
root of the stored squared distance, as computed by `math.sqrt` — is at most
the cutoff and equals the Euclidean norm of the connection vector. -/
theorem find_exactness (cutoff : ℚ) (pts : List Vec3) (cell : SimulationCell)
    (f : CutoffNeighborFinder) (i : ℕ) (r : NeighborRecord)
    (hok : prepare cutoff pts cell = .ok f)
    (hr : r ∈ findRecords f i) :
    r.distSq ≤ cutoff ^ 2 ∧ r.distSq = normSq r.delta ∧
      Real.sqrt ((r.distSq : ℚ) : ℝ) ≤ ((cutoff : ℚ) : ℝ) := by
  rw [prepare_eq_ok] at hok
  obtain ⟨hc, -, hfe⟩ := hok
  have hfc : f.cutoff = cutoff := by rw [hfe]
  rw [findRecords_eq, mem_find] at hr
  obtain ⟨⟨j, hj, s, hs, hre⟩, hacc⟩ := hr
  have h1 : r.distSq ≤ cutoff ^ 2 := by
    rw [← hfc]
    exact hacc.1
  have h2 : r.distSq = normSq r.delta := by
    rw [← hre]
    exact mkRecord_distSq f i j s
  refine ⟨h1, h2, ?_⟩
  have h3 : ((r.distSq : ℚ) : ℝ) ≤ ((cutoff : ℚ) : ℝ) ^ 2 := by exact_mod_cast h1
  calc Real.sqrt ((r.distSq : ℚ) : ℝ)
      ≤ Real.sqrt (((cutoff : ℚ) : ℝ) ^ 2) := Real.sqrt_le_sqrt h3
  _ = ((cutoff : ℚ) : ℝ) := Real.sqrt_sq (by exact_mod_cast le_of_lt hc)

/-- C2 witness: the concrete record of `exFinder` satisfies the exactness
bounds at cutoff 2. -/
theorem find_exactness_witness :
    exRecord.distSq ≤ (2 : ℚ) ^ 2 ∧ exRecord.distSq = normSq exRecord.delta ∧
      Real.sqrt ((exRecord.distSq : ℚ) : ℝ) ≤ (((2 : ℚ) : ℚ) : ℝ) :=
  find_exactness 2 exPts exCell exFinder 0 exRecord exPrepare exRecord_mem_findRecords

/-- C3: (i) no query result is the unshifted self-pair: a record of `find f i`
never has neighbor index `i` together with zero periodic shift; (ii) for a
finder built by `prepare`, every periodic self-image within the cutoff is
reported: any non-zero shift that vanishes on non-periodic axes and whose
translation vector has squared norm at most the squared cutoff yields a
self-record of particle `i`; (iii) in particular, in a cubic periodic cell of
side `L` with a single particle at the origin and `cutoff > L`, the query of
particle 0 contains a record with neighbor index 0 and non-zero shift. -/
theorem find_self_images :
    (∀ (f : CutoffNeighborFinder) (i : ℕ) (r : NeighborRecord), r ∈ find f i →
        ¬(r.neighborIndex = i ∧ r.pbcShift = ((0, 0, 0) : Shift3))) ∧
    (∀ (cutoff : ℚ) (pts : List Vec3) (cell : SimulationCell)
        (f : CutoffNeighborFinder) (i : ℕ) (s : Shift3),
        prepare cutoff pts cell = .ok f → i < pts.length →
        (cell.pbcX = false → s.1 = 0) → (cell.pbcY = false → s.2.1 = 0) →
        (cell.pbcZ = false → s.2.2 = 0) →
        normSq (shiftVec cell s) ≤ cutoff ^ 2 → s ≠ ((0, 0, 0) : Shift3) →
        ({ neighborIndex := i, distSq := normSq (shiftVec cell s),
           delta := shiftVec cell s, pbcShift := s } : NeighborRecord) ∈ find f i) ∧
    (∀ (L cutoff : ℚ) (f : CutoffNeighborFinder), 0 < L → L < cutoff →
        prepare cutoff [((0 : ℚ), (0 : ℚ), (0 : ℚ))] (cubicCell L) = .ok f →
        ∃ r ∈ find f 0, r.neighborIndex = 0 ∧ r.pbcShift ≠ ((0, 0, 0) : Shift3)) := by
  refine ⟨?_, ?_, ?_⟩
  · intro f i r hr
    rw [mem_find] at hr
    exact hr.2.2
  · intro cutoff pts cell f i s hok hi hx hy hz hns hs0
    exact self_image_mem cutoff pts cell f i s hok hi hx hy hz hns hs0
  · intro L cutoff f hL hLc hok
    have he : shiftVec (cubicCell L) ((1, 0, 0) : Shift3) = ((L, 0, 0) : Vec3) := by
      simp [shiftVec, cubicCell, vsmul, vadd]
    have hn : normSq ((L, 0, 0) : Vec3) = L ^ 2 := by
      unfold normSq dot
      ring
    have hns : normSq (shiftVec (cubicCell L) ((1, 0, 0) : Shift3)) ≤ cutoff ^ 2 := by
      rw [he, hn]
      nlinarith
    refine ⟨{ neighborIndex := 0, distSq := normSq (shiftVec (cubicCell L) ((1, 0, 0) : Shift3)),
              delta := shiftVec (cubicCell L) ((1, 0, 0) : Shift3),
              pbcShift := ((1, 0, 0) : Shift3) }, ?_, rfl, by simp⟩
    exact self_image_mem cutoff [((0 : ℚ), (0 : ℚ), (0 : ℚ))] (cubicCell L) f 0
      ((1, 0, 0) : Shift3) hok (by norm_num)
      (fun h => by simp [cubicCell] at h) (fun h => by simp [cubicCell] at h)
      (fun h => by simp [cubicCell] at h) hns (by decide)

/-- C3 witness: the unshifted self-pair is rejected at the concrete record of
`exFinder`, and the unit periodic cube with cutoff 2 reports its particle as
its own periodic neighbor. -/
theorem find_self_images_witness :
    (¬(exRecord.neighborIndex = 0 ∧ exRecord.pbcShift = ((0, 0, 0) : Shift3))) ∧
    (∃ r ∈ find exCubicFinder 0, r.neighborIndex = 0 ∧
      r.pbcShift ≠ ((0, 0, 0) : Shift3)) :=
  ⟨find_self_images.1 exFinder 0 exRecord exRecord_mem,
   find_self_images.2.2 1 2 exCubicFinder (by norm_num) (by norm_num) exCubicPrepare⟩

/-- C4: the Python `find` wrapper raises its `IndexError` condition exactly
when the requested index is negative or at least the particle count, and for
an in-range index it returns the generator's record sequence without
error. -/
theorem find_index_check (f : CutoffNeighborFinder) (index : ℤ) :
    ((∃ msg, findChecked f index = .error (.indexError msg)) ↔
      index < 0 ∨ (f.points.length : ℤ) ≤ index) ∧
    (0 ≤ index → index < (f.points.length : ℤ) →
      findChecked f index = .ok (findRecords f index.toNat)) := by
  unfold findChecked
  split_ifs with h
  · refine ⟨⟨fun _ => h, fun _ => ⟨_, rfl⟩⟩, ?_⟩
    intro h1 h2
    rcases h with h | h
    · exact absurd h1 (not_le.mpr h)
    · exact absurd h2 (not_lt.mpr h)
  · refine ⟨⟨?_, fun hh => absurd hh h⟩, fun _ _ => rfl⟩
    rintro ⟨msg, hm⟩
    cases hm

/-- C4 witness: over the two-particle finder, index −1 and index 2 raise the
index error, index 0 succeeds. -/
theorem find_index_check_witness :
    (∃ msg, findChecked exFinder (-1) = .error (.indexError msg)) ∧
    (∃ msg, findChecked exFinder 2 = .error (.indexError msg)) ∧
    findChecked exFinder 0 = .ok (findRecords exFinder 0) :=
  ⟨(find_index_check exFinder (-1)).1.mpr (Or.inl (by norm_num)),
   (find_index_check exFinder 2).1.mpr (Or.inr (by norm_num [exFinder, exPts])),
   (find_index_check exFinder 0).2 (by norm_num) (by norm_num [exFinder, exPts])⟩

/-- C5: construction fails with a `ConfigurationError` exactly when the
cutoff is non-positive or the cell is degenerate with a periodic flag set; in
every other case — in particular whenever the cutoff is positive and all
periodic flags are false, regardless of the cell volume — it succeeds and
returns a finder. -/
theorem prepare_config_errors (cutoff : ℚ) (pts : List Vec3) (cell : SimulationCell) :
    ((∃ msg, prepare cutoff pts cell = .error (.configurationError msg)) ↔
      cutoff ≤ 0 ∨ (cell.det = 0 ∧ cell.hasPbc = true)) ∧
    (¬(cutoff ≤ 0 ∨ (cell.det = 0 ∧ cell.hasPbc = true)) →
      ∃ f, prepare cutoff pts cell = .ok f) ∧
    (0 < cutoff → cell.hasPbc = false → ∃ f, prepare cutoff pts cell = .ok f) := by
  unfold prepare
  split_ifs with h1 h2
  · refine ⟨⟨fun _ => Or.inl h1, fun _ => ⟨_, rfl⟩⟩, ?_, ?_⟩
    · intro hn
      exact absurd (Or.inl h1) hn
    · intro hc _
      exact absurd h1 (not_le.mpr hc)
  · refine ⟨⟨fun _ => Or.inr h2, fun _ => ⟨_, rfl⟩⟩, ?_, ?_⟩
    · intro hn
      exact absurd (Or.inr h2) hn
    · intro _ hp
      rw [hp] at h2
      exact absurd h2.2 (by simp)
  · refine ⟨⟨?_, fun hh => absurd hh (by tauto)⟩, fun _ => ⟨_, rfl⟩, fun _ _ => ⟨_, rfl⟩⟩
    rintro ⟨msg, hm⟩
    cases hm

/-- C5 witness: a zero-volume cell with a periodic flag is rejected at cutoff
1, while the same zero-volume cell with all flags cleared is accepted. -/
theorem prepare_config_errors_witness :
    (∃ msg, prepare 1 exPts zeroCellP = .error (.configurationError msg)) ∧
    (∃ f, prepare 1 exPts zeroCellN = .ok f) :=
  ⟨(prepare_config_errors 1 exPts zeroCellP).1.mpr
      (Or.inr ⟨by norm_num [zeroCellP, SimulationCell.det, dot, cross], rfl⟩),
   (prepare_config_errors 1 exPts zeroCellN).2.2 (by norm_num) rfl⟩

/-- C6: symmetry of the neighbor relation — if the query of `i` reports a
record with neighbor `j`, squared distance `d²`, connection vector `v` and
shift `s`, then the query of `j` reports the record with neighbor `i`,
the same squared distance, connection vector `-v` and shift `-s` (exact
equalities in this exact-arithmetic model). -/
theorem find_symmetry (f : CutoffNeighborFinder) (i j : ℕ) (r : NeighborRecord)
    (hi : i < f.points.length)
    (hr : r ∈ find f i) (hn : r.neighborIndex = j) :
    ({ neighborIndex := i, distSq := r.distSq, delta := vneg r.delta,
       pbcShift := sneg r.pbcShift } : NeighborRecord) ∈ find f j := by
  rw [mem_find] at hr
  obtain ⟨⟨j', hj', s, hs, hre⟩, hacc⟩ := hr
  have hj2 : j' = j := by
    rw [← hn, ← hre]
    rfl
  have hsh : r.pbcShift = s := by
    rw [← hre]
    rfl
  rw [mem_find]
  refine ⟨⟨i, hi, sneg s, sneg_mem_allShifts f s hs, ?_⟩, ?_, ?_⟩
  · rw [← hj2, mkRecord_sneg, hre, hsh]
  · show r.distSq ≤ f.cutoff ^ 2
    exact hacc.1
  · rintro ⟨h1, h2⟩
    have h2e : s = ((0, 0, 0) : Shift3) := by
      rw [← sneg_eq_zero_iff, ← hsh]
      exact h2
    have h1e : r.neighborIndex = i := by
      rw [hn]
      exact (show i = j from h1).symm
    refine hacc.2 ⟨h1e, ?_⟩
    rw [hsh]
    exact h2e

/-- C6 witness: the mirror of the concrete record of particle 0 appears in
the query of particle 1. -/
theorem find_symmetry_witness :
    ({ neighborIndex := 0, distSq := exRecord.distSq, delta := vneg exRecord.delta,
       pbcShift := sneg exRecord.pbcShift } : NeighborRecord) ∈ find exFinder 1 :=
  find_symmetry exFinder 0 1 exRecord (by norm_num [exFinder, exPts]) exRecord_mem rfl

/-- C7: the Python generator loop terminates after finitely many yields, and
one invocation produces exactly the finite record list of the underlying
query; since `findRecords` constructs a fresh query from only the finder and
the index and mutates neither, any two invocations with the same arguments
produce the same record sequence. -/
theorem findRecords_deterministic (f : CutoffNeighborFinder) (i : ℕ) :
    findRecords f i = find f i :=
  findRecords_eq f i

/-- C8: for every cutoff — even one that `prepare` would reject — the Python
constructor raises a `KeyError` (never a `ConfigurationError`) when the data
collection lacks the `position` or the `cell` attribute, so the native
`prepare` step is never reached. -/
theorem build_missing_data_keyError (cutoff : ℚ) (dc : DataCollection)
    (h : dc.position = none ∨ dc.cell = none) :
    (∃ msg, build cutoff dc = .error (.keyError msg)) ∧
    (∀ msg, build cutoff dc ≠ .error (.configurationError msg)) := by
  obtain ⟨pos, cl⟩ := dc
  cases pos with
  | none => exact ⟨⟨_, rfl⟩, fun msg hm => by cases hm⟩
  | some pos =>
    cases cl with
    | none => exact ⟨⟨_, rfl⟩, fun msg hm => by cases hm⟩
    | some c =>
      rcases h with h | h
      · cases h
      · cases h

/-- C8 witness: at negative cutoff −1, both a missing `position` and a
missing `cell` attribute produce the `KeyError`, not the configuration
error that `prepare` would raise. -/
theorem build_missing_data_keyError_witness :
    (∃ msg, build (-1) dcNoPos = .error (.keyError msg)) ∧
    (∃ msg, build (-1) dcNoCell = .error (.keyError msg)) :=
  ⟨(build_missing_data_keyError (-1) dcNoPos (Or.inl rfl)).1,
   (build_missing_data_keyError (-1) dcNoCell (Or.inr rfl)).1⟩

/-- C9: every record yielded by the Python generator carries a neighbor index
inside `[0, N)`, where `N` is the particle count of the finder; the remaining
components are, by construction, a rational, a 3-component vector and a
3-component integer shift. -/
theorem findRecords_index_in_range (f : CutoffNeighborFinder) (i : ℕ) (r : NeighborRecord)
    (hr : r ∈ findRecords f i) : r.neighborIndex < f.points.length := by
  rw [findRecords_eq, mem_find] at hr
  obtain ⟨⟨j, hj, s, hs, hre⟩, -⟩ := hr
  rw [← hre]
  exact hj

/-- C9 witness: the concrete record of `exFinder` has its neighbor index
below the particle count 2. -/
theorem findRecords_index_in_range_witness :
    exRecord.neighborIndex < exFinder.points.length :=
  findRecords_index_in_range exFinder 0 exRecord exRecord_mem_findRecords

end CutoffNeighborFinder

/-- C10: writing any 3-element flag sequence through the `SimulationCell.pbc`
setter succeeds and the getter then returns exactly those three flags in
order; writing a sequence of any other length fails the setter's length
assertion. -/
theorem pbc_property_roundtrip (c : SimulationCell) (flags : List Bool) :
    (flags.length = 3 →
      ∃ c2, SimulationCell.pbcSet c flags = some c2 ∧
        SimulationCell.pbcGet c2 =
          (flags.getD 0 false, flags.getD 1 false, flags.getD 2 false)) ∧
    (flags.length ≠ 3 → SimulationCell.pbcSet c flags = none) := by
  unfold SimulationCell.pbcSet
  split_ifs with h
  · exact ⟨fun _ => ⟨_, rfl, rfl⟩, fun hn => absurd h hn⟩
  · exact ⟨fun h3 => absurd h3 h, fun _ => rfl⟩

/-- C10 witness: the flag list `[true, false, true]` round-trips through the
property on the concrete cell, and the length-1 list is rejected. -/
theorem pbc_property_roundtrip_witness :
    (∃ c2, SimulationCell.pbcSet exCell [true, false, true] = some c2 ∧
      SimulationCell.pbcGet c2 = (true, false, true)) ∧
    SimulationCell.pbcSet exCell [true] = none :=
  ⟨(pbc_property_roundtrip exCell [true, false, true]).1 (by decide),
   (pbc_property_roundtrip exCell [true]).2 (by decide)⟩

end Ovito
